import Mathlib

/-!
Verification development for the Books-to-Scrape repository.

The repository has two source files:
* `BOOKS TO SCRAPE/books_to_scrape.py` — a Scrapy spider whose `parse`
  method extracts book records from each catalogue page and follows the
  pagination link;
* `app.py` — a Streamlit dashboard that loads the spider's CSV output and
  cleans/filters it (`parse_price`, `parse_rating`, rating filter).

This file shallowly embeds the relevant parts of that code: strings are
`String`/`List Char`, Python `None` is `Option.none`, numeric values are
exact rationals, and the Scrapy driver is an explicit RUNNING/DONE state
machine driven with fuel.  Each claim about the program is then settled by
a theorem about these definitions.
-/

/-- Python whitespace characters stripped by `str.strip()` / `float()`
(ASCII subset; the inputs in scope contain only these). -/
def isPyWS (c : Char) : Bool :=
  c = ' ' || c = '\t' || c = '\n' || c = '\r' || c = '\x0b' || c = '\x0c'

/-- `str.strip()` on a character list: drop whitespace from both ends. -/
def trimL (cs : List Char) : List Char :=
  ((cs.dropWhile isPyWS).reverse.dropWhile isPyWS).reverse

/-- `str.strip()` on `String`. -/
def pyStrip (s : String) : String := (trimL s.toList).asString

/-- ASCII case folding, modelling Python `str.lower()` on the ASCII
letters (the only case-sensitive characters relevant to this program). -/
def lowerAscii (c : Char) : Char :=
  match c with
  | 'A' => 'a' | 'B' => 'b' | 'C' => 'c' | 'D' => 'd' | 'E' => 'e'
  | 'F' => 'f' | 'G' => 'g' | 'H' => 'h' | 'I' => 'i' | 'J' => 'j'
  | 'K' => 'k' | 'L' => 'l' | 'M' => 'm' | 'N' => 'n' | 'O' => 'o'
  | 'P' => 'p' | 'Q' => 'q' | 'R' => 'r' | 'S' => 's' | 'T' => 't'
  | 'U' => 'u' | 'V' => 'v' | 'W' => 'w' | 'X' => 'x' | 'Y' => 'y'
  | 'Z' => 'z' | c => c

/-- Does `cs` start with the pattern `pat`? (Python `str.startswith`,
also the per-position test of the `in` substring operator.) -/
def startsWithL : List Char → List Char → Bool
  | [], _ => true
  | _ :: _, [] => false
  | p :: ps, c :: cs => p = c && startsWithL ps cs

/-- Python substring containment `pat in cs`. -/
def containsSub (pat : List Char) : List Char → Bool
  | [] => startsWithL pat []
  | c :: cs => startsWithL pat (c :: cs) || containsSub pat cs

/-- One fuel-measured pass of Python `str.replace(pat, "")`: remove all
(non-overlapping, leftmost-first) occurrences of a nonempty `pat`. -/
def replaceSubGo (pat : List Char) : Nat → List Char → List Char
  | _, [] => []
  | 0, cs => cs
  | fuel + 1, c :: cs =>
    if startsWithL pat (c :: cs) && !pat.isEmpty then
      replaceSubGo pat fuel (List.drop (pat.length - 1) cs)
    else
      c :: replaceSubGo pat fuel cs

/-- Python `str.replace(pat, "")`. -/
def replaceSub (pat cs : List Char) : List Char := replaceSubGo pat cs.length cs

/-- `"".join([a.strip() for a in xs if a.strip()])` from the spider's
availability extraction. -/
def joinStripped (xs : List String) : String :=
  String.join ((xs.map pyStrip).filter (fun a => a ≠ ""))

/-- Split a character list at every `'/'` (`str.split("/")`). -/
def splitSlash : List Char → List (List Char)
  | [] => [[]]
  | '/' :: cs => [] :: splitSlash cs
  | c :: cs =>
    match splitSlash cs with
    | s :: rest => (c :: s) :: rest
    | [] => [[c]]

/-- Join segments with `'/'`. -/
def joinSlash : List (List Char) → List Char
  | [] => []
  | [s] => s
  | s :: rest => s ++ '/' :: joinSlash rest

/-- RFC-3986-style dot-segment resolution used by `urllib.parse.urljoin`:
`"."` is dropped, `".."` pops the previous segment (excess `".."` is
dropped at the root). -/
def resolveSegs (segs : List (List Char)) : List (List Char) :=
  segs.foldl
    (fun acc s =>
      if s = ['.'] then acc
      else if s = ['.', '.'] then acc.dropLast
      else acc ++ [s]) []

/-- `urllib.parse.urljoin(base, rel)` on character lists, modelled for the
URL shapes this program produces: an absolute `http(s)` base without
query/fragment, and a rel that is empty, absolute, host-relative
(leading `'/'`) or path-relative (possibly with `"."`/`".."` segments).
In particular `urljoin base "" = base`, as in Python. -/
def urljoinL (base rel : List Char) : List Char :=
  if rel = [] then base
  else if startsWithL "http://".toList rel || startsWithL "https://".toList rel then rel
  else
    match splitSlash base with
    | scheme :: [] :: host :: pathSegs =>
      let root := scheme ++ '/' :: '/' :: host
      match rel with
      | '/' :: _ => root ++ rel
      | _ => root ++ '/' :: joinSlash (resolveSegs (pathSegs.dropLast ++ splitSlash rel))
    | _ => rel

/-- `response.urljoin` on `String`. -/
def urljoin (base rel : String) : String := (urljoinL base.toList rel.toList).asString

/-! ## The spider's data model (`books_to_scrape.py`, `BooksSpider.parse`) -/

/-- The selector results the `parse` method reads out of one
`article.product_pod` container:
`h3 a::attr(title)`, `p.price_color::text` (first match),
`p.instock.availability::text` (all matches),
`p.star-rating::attr(class)`, `div.image_container a img::attr(src)`.
`none` / `[]` mean the selector matched nothing. -/
structure BookSel where
  titleAttr : Option String
  priceText : Option String
  availabilityTexts : List String
  ratingClass : Option String
  imageSrc : Option String
deriving DecidableEq, Repr

/-- A fetched page as `parse` observes it: its URL, its
`article.product_pod` containers, and the `li.next a::attr(href)`
selector result (`none` when the page has no next link). -/
structure Response where
  url : String
  books : List BookSel
  nextHref : Option String
deriving DecidableEq, Repr

/-- One scraped item, the five fields of the dict yielded by `parse`. -/
structure Record where
  title : String
  price : String
  availability : String
  rating : String
  image_url : String
deriving DecidableEq, Repr

/-- Output of processing one page: its Records in document order plus the
optional next-page reference. -/
structure PageResult where
  records : List Record
  next : Option String
deriving DecidableEq, Repr

/-- The body of the `for book in books` loop in `parse`:
* `title = book.css("h3 a::attr(title)").get(default="").strip()`
* `price = book.css("p.price_color::text").get(default="").replace("Â", "").strip()`
* `availability = "".join([a.strip() for a in getall-result if a.strip()])`
* `rating = book.css(...).get(default="").replace("star-rating", "").strip()`
* `image_url = response.urljoin(book.css(...).get(default=""))` -/
def extractBook (url : String) (b : BookSel) : Record :=
  { title := pyStrip (b.titleAttr.getD "")
    price := pyStrip (((b.priceText.getD "").toList.filter (fun c => c ≠ 'Â')).asString)
    availability := joinStripped b.availabilityTexts
    rating := pyStrip ((replaceSub "star-rating".toList (b.ratingClass.getD "").toList).asString)
    image_url := urljoin url (b.imageSrc.getD "") }

/-- The Extractor (`extract(page_content, base_url) -> PageResult`): the
record-producing part of `parse` plus the
`response.css("li.next a::attr(href)").get()` pagination probe. -/
def extract (r : Response) : PageResult :=
  { records := r.books.map (extractBook r.url)
    next := r.nextHref }

/-- The driver's state: RUNNING holds the current page URL, DONE means
the crawl has stopped. -/
inductive CrawlState where
  | RUNNING (url : String)
  | DONE
deriving DecidableEq, Repr

/-- One driver step (the tail of `parse`): fetch the current page,
extract it, and follow the next link iff it is present and truthy
(`if next_page:` — the empty string is falsy), resolving it against the
page's URL as `response.follow` does.  The model's `site` is a pure
fetch function; all fetches in the claims' scope succeed. -/
def crawlStep (site : String → Response) (url : String) : List Record × CrawlState :=
  let r := site url
  let pr := extract r
  match pr.next with
  | some n => if n = "" then (pr.records, CrawlState.DONE)
              else (pr.records, CrawlState.RUNNING (urljoin r.url n))
  | none => (pr.records, CrawlState.DONE)

/-- The paginator loop, fuel-measured: run `crawlStep` from the current
state, collecting emitted Records in order, until DONE (or fuel runs
out, which never happens in the claims' scope). -/
def crawl (site : String → Response) : Nat → CrawlState → List Record × CrawlState
  | 0, st => ([], st)
  | _ + 1, CrawlState.DONE => ([], CrawlState.DONE)
  | fuel + 1, CrawlState.RUNNING url =>
    let (recs, st) := crawlStep site url
    let (rest, fin) := crawl site fuel st
    (recs ++ rest, fin)

/-! ## The output sink

Modelled from the spec: the CSV feed exporter configured by
`custom_settings` (`FEEDS` → `books_info.csv`, format csv, overwrite) is
Scrapy library code, not part of this repository's sources; per the spec
the sink is a tabular file whose first row is the literal header
`Book Title, Book Price, Instock Availability, Rating, Image URL` and
which has one row per Record, in order.  We model it at row level: a sink
is a list of rows, each row a list of cell strings. -/

/-- Modelled from the spec: the literal header row of the sink
(the keys of the dict yielded by `parse`, in yield order). -/
def headerRow : List String :=
  ["Book Title", "Book Price", "Instock Availability", "Rating", "Image URL"]

/-- Modelled from the spec: the sink row of one Record, cells in header
order. -/
def recordRow (r : Record) : List String :=
  [r.title, r.price, r.availability, r.rating, r.image_url]

/-- Modelled from the spec: writing N Records to the sink produces the
header row followed by one row per Record, in order (overwrite mode: the
sink holds exactly these rows). -/
def writeSink (rs : List Record) : List (List String) :=
  headerRow :: rs.map recordRow

/-- Modelled from the spec: reading one data row back as a Record; fails
unless the row has exactly the five cells. -/
def rowRecord : List String → Option Record
  | [t, p, a, rt, im] => some { title := t, price := p, availability := a,
                                rating := rt, image_url := im }
  | _ => none

/-- Modelled from the spec: read all data rows back, failing if any row
is malformed. -/
def readRows : List (List String) → Option (List Record)
  | [] => some []
  | row :: rest =>
    match rowRecord row, readRows rest with
    | some r, some rs => some (r :: rs)
    | _, _ => none

/-- Modelled from the spec: reading the sink back checks the literal
header row, then reads every data row as a Record. -/
def readSink : List (List String) → Option (List Record)
  | [] => none
  | h :: rows => if h = headerRow then readRows rows else none

/-! ## Dashboard price parsing (`app.py`, `parse_price`) -/

/-- Tail of a Python `digitpart` after its leading digit: digits with
single underscores allowed between digits (`digit (["_"] digit)*`). -/
def isDigitpartTail : List Char → Bool
  | [] => true
  | ['_'] => false
  | '_' :: c :: rest => c.isDigit && isDigitpartTail rest
  | c :: rest => c.isDigit && isDigitpartTail rest

/-- Python numeric-literal `digitpart`: nonempty, starts with a digit,
single underscores only between digits. -/
def isDigitpart : List Char → Bool
  | [] => false
  | c :: rest => c.isDigit && isDigitpartTail rest

/-- Numeric value of a digitpart (underscores ignored). -/
def natVal (cs : List Char) : Nat :=
  (cs.filter (fun c => c ≠ '_')).foldl (fun a c => 10 * a + (c.toNat - 48)) 0

/-- Number of digits of a digitpart (underscores ignored). -/
def digCount (cs : List Char) : Nat := (cs.filter (fun c => c ≠ '_')).length

/-- The value of a Python `float(...)` conversion, with exact rational
finite values: finite, signed infinity, or NaN.  (`float` returns IEEE
doubles; the claims only concern the decimal values and missingness, so
finite values are modelled exactly.) -/
inductive PyFloatVal where
  | fin (q : ℚ)
  | inf (neg : Bool)
  | nan
deriving DecidableEq, Repr

/-- Mantissa of a Python float literal (`pointfloat` or `digitpart`):
`digitpart`, `digitpart "."`, `[digitpart] "." digitpart`.  The exact
value is returned as an unreduced numerator/denominator pair
(denominator a power of ten), kept in integer arithmetic so that the
kernel can evaluate it. -/
def parseMantissa (cs : List Char) : Option (Int × Nat) :=
  let ip := cs.takeWhile (fun c => c ≠ '.')
  let rest := cs.dropWhile (fun c => c ≠ '.')
  match rest with
  | [] => if isDigitpart ip then some ((natVal ip : Int), 1) else none
  | _ :: frac =>
    if ip.isEmpty then
      if isDigitpart frac then some ((natVal frac : Int), 10 ^ digCount frac) else none
    else if isDigitpart ip then
      if frac.isEmpty then some ((natVal ip : Int), 1)
      else if isDigitpart frac then
        some ((natVal ip : Int) * 10 ^ digCount frac + (natVal frac : Int),
              10 ^ digCount frac)
      else none
    else none

/-- Exponent of a Python float literal: optional sign then a digitpart. -/
def parseExp (cs : List Char) : Option ℤ :=
  match cs with
  | '+' :: rest => if isDigitpart rest then some ((natVal rest : ℤ)) else none
  | '-' :: rest => if isDigitpart rest then some (-(natVal rest : ℤ)) else none
  | _ => if isDigitpart cs then some ((natVal cs : ℤ)) else none

/-- Unsigned numeric part of Python `float(...)`: mantissa with optional
`e`/`E` exponent, as the exact rational `mantissa * 10 ^ exponent`. -/
def parseNumeric (cs : List Char) : Option ℚ :=
  let mant := cs.takeWhile (fun c => c ≠ 'e' && c ≠ 'E')
  let erest := cs.dropWhile (fun c => c ≠ 'e' && c ≠ 'E')
  match erest with
  | [] => (parseMantissa mant).map (fun m => mkRat m.1 m.2)
  | _ :: etail =>
    match parseMantissa mant, parseExp etail with
    | some m, some e =>
      if 0 ≤ e then some (mkRat (m.1 * 10 ^ e.toNat) m.2)
      else some (mkRat m.1 (m.2 * 10 ^ (-e).toNat))
    | _, _ => none

/-- Case-insensitive `inf` / `infinity` literal (after sign removal). -/
def isInfTok (cs : List Char) : Bool :=
  cs.map lowerAscii = "inf".toList || cs.map lowerAscii = "infinity".toList

/-- Case-insensitive `nan` literal (after sign removal). -/
def isNanTok (cs : List Char) : Bool := cs.map lowerAscii = "nan".toList

/-- Strip one optional leading sign, reporting whether it was `'-'`. -/
def signSplit (cs : List Char) : Bool × List Char :=
  match cs with
  | [] => (false, [])
  | c :: r =>
    if c = '+' then (false, r)
    else if c = '-' then (true, r)
    else (false, c :: r)

/-- Python `float(...)` after whitespace stripping and sign handling. -/
def floatUnsigned (r : List Char) (neg : Bool) : Option PyFloatVal :=
  if isInfTok r then some (PyFloatVal.inf neg)
  else if isNanTok r then some PyFloatVal.nan
  else
    match parseNumeric r with
    | some q => some (PyFloatVal.fin (if neg then -q else q))
    | none => none

/-- Python `float(s)`: strip whitespace, take an optional sign, then an
`inf`/`infinity`/`nan` literal (case-insensitive) or a numeric literal;
`none` models the `ValueError` of an unparseable string. -/
def pyFloat? (cs : List Char) : Option PyFloatVal :=
  let sr := signSplit (trimL cs)
  floatUnsigned sr.2 sr.1

/-- Python `re.search(r"\d+(?:\.\d+)?", s)` evaluated as a rational:
scan for the first digit, take the maximal digit run, then a fractional
part if a dot followed by at least one digit follows. -/
def reSearchNum : List Char → Option ℚ
  | [] => none
  | c :: cs =>
    if c.isDigit then
      let ds := List.takeWhile Char.isDigit (c :: cs)
      let rest := List.dropWhile Char.isDigit (c :: cs)
      match rest with
      | '.' :: rest2 =>
        let fs := List.takeWhile Char.isDigit rest2
        if fs.isEmpty then some (mkRat (natVal ds : Int) 1)
        else some (mkRat ((natVal ds : Int) * 10 ^ fs.length + (natVal fs : Int))
                     (10 ^ fs.length))
      | _ => some (mkRat (natVal ds : Int) 1)
    else reSearchNum cs

/-- The cleaning prefix of `parse_price`:
`str(p).replace("Â", "").strip()` then
`.replace("£", "").replace("$", "").replace(",", "")`. -/
def cleanPrice (cs : List Char) : List Char :=
  (trimL (cs.filter (fun c => c ≠ 'Â'))).filter
    (fun c => !(c = '£' || c = '$' || c = ','))

/-- `parse_price` from `app.py` on a string cell (for a string input
`pd.isna` is false): clean the string, try `float(...)`, and on failure
fall back to `re.search(r"\d+(?:\.\d+)?", s)`; `none` models `np.nan`
when the regex also fails. -/
def parsePrice (p : String) : Option PyFloatVal :=
  let s := cleanPrice p.toList
  match pyFloat? s with
  | some v => some v
  | none => (reSearchNum s).map PyFloatVal.fin

/-- A dashboard value is missing when it is `np.nan` — either no value
was produced or `float` returned a NaN. -/
def isMissing : Option PyFloatVal → Bool
  | none => true
  | some PyFloatVal.nan => true
  | some _ => false

/-- Does the list contain a decimal digit? -/
def containsDigitL (cs : List Char) : Bool := cs.any Char.isDigit

/-- Is the string (after stripping and sign removal) a case-insensitive
`inf`/`infinity` literal — exactly the inputs `float` maps to ±inf? -/
def isInfLit (cs : List Char) : Bool := isInfTok (signSplit (trimL cs)).2

/-! ## Dashboard rating parsing (`app.py`, `parse_rating`) -/

/-- Python `k.lower() in s.lower()` where `s` is the stripped cell:
case-insensitive substring containment. -/
def ciContains (w s : String) : Bool :=
  containsSub w.toList ((trimL s.toList).map lowerAscii)

/-- The five ordinal words, in the iteration order of `word_to_num`. -/
def ordWords : List String := ["one", "two", "three", "four", "five"]

/-- Python `re.search(r"(\d+)", s)` evaluated as the integer of the
first maximal digit run. -/
def reSearchInt : List Char → Option Nat
  | [] => none
  | c :: cs =>
    if c.isDigit then some (natVal (List.takeWhile Char.isDigit (c :: cs)))
    else reSearchInt cs

/-- `parse_rating` from `app.py` on a string cell: strip, then return
the value of the first ordinal word contained case-insensitively
(checked in `word_to_num` order One..Five), else the first digit run,
else missing. -/
def parseRating (r : String) : Option Nat :=
  if ciContains "one" r then some 1
  else if ciContains "two" r then some 2
  else if ciContains "three" r then some 3
  else if ciContains "four" r then some 4
  else if ciContains "five" r then some 5
  else reSearchInt (trimL r.toList)

/-! ## Dashboard rating filter (`app.py`, `df[df["rating_num"].isin(rating_options)]`) -/

/-- A dashboard dataframe row: the five CSV columns of one Record. -/
structure DashRow where
  bookTitle : String
  bookPrice : String
  instock : String
  rating : String
  imageURL : String
deriving DecidableEq, Repr

/-- The derived `rating_num` column:
`df["rating_num"] = df["Rating"].apply(parse_rating)`. -/
def ratingNum (r : DashRow) : Option Nat := parseRating r.rating

/-- The rating filter `df[df["rating_num"].isin(rating_options)]`.
Pandas `isin` compares each cell to the option values; a NaN cell
(`ratingNum = none`) equals none of them, so such rows are dropped. -/
def isinFilter (opts : List Nat) (rows : List DashRow) : List DashRow :=
  rows.filter
    (fun r =>
      match ratingNum r with
      | some v => opts.contains v
      | none => false)

/-! ## Concrete pages used to instantiate the theorems -/

/-- A demo book container with every selector matching. -/
def demoBook : BookSel :=
  { titleAttr := some "A Light in the Attic"
    priceText := some "Â£51.77"
    availabilityTexts := ["\n    ", "In stock", "\n"]
    ratingClass := some "star-rating Three"
    imageSrc := some "media/img1.jpg" }

/-- A demo book container where no selector matched anything. -/
def emptyBook : BookSel :=
  { titleAttr := none, priceText := none, availabilityTexts := [],
    ratingClass := none, imageSrc := none }

/-- Page 1 of the synthetic 3-page site; links forward to page 2. -/
def demoPage1 : Response :=
  { url := "http://s/p1.html", books := [demoBook], nextHref := some "p2.html" }

/-- Page 2 of the synthetic 3-page site; links forward to page 3. -/
def demoPage2 : Response :=
  { url := "http://s/p2.html", books := [demoBook, emptyBook], nextHref := some "p3.html" }

/-- Page 3 of the synthetic 3-page site; no next link. -/
def demoPage3 : Response :=
  { url := "http://s/p3.html", books := [demoBook], nextHref := none }

/-- The synthetic 3-page linear site as a pure fetch function. -/
def demoSite (u : String) : Response :=
  if u = "http://s/p1.html" then demoPage1
  else if u = "http://s/p2.html" then demoPage2
  else if u = "http://s/p3.html" then demoPage3
  else { url := u, books := [], nextHref := none }

/-! ## Helper lemmas -/

theorem asString_toList (s : String) : s.toList.asString = s := rfl

theorem crawl_done (site : String → Response) :
    ∀ fuel : Nat, crawl site fuel CrawlState.DONE = ([], CrawlState.DONE)
  | 0 => rfl
  | _ + 1 => rfl

theorem crawl_succ (site : String → Response) (fuel : Nat) (url : String) :
    crawl site (fuel + 1) (CrawlState.RUNNING url) =
      ((crawlStep site url).1 ++ (crawl site fuel (crawlStep site url).2).1,
       (crawl site fuel (crawlStep site url).2).2) := rfl

theorem crawlStep_next (site : String → Response) (url : String) (r : Response) (n : String)
    (hf : site url = r) (hn : r.nextHref = some n) (hne : n ≠ "") :
    crawlStep site url = ((extract r).records, CrawlState.RUNNING (urljoin r.url n)) := by
  simp [crawlStep, hf, extract, hn, hne]

theorem crawlStep_stop (site : String → Response) (url : String) (r : Response)
    (hf : site url = r) (hn : r.nextHref = none) :
    crawlStep site url = ((extract r).records, CrawlState.DONE) := by
  simp [crawlStep, hf, extract, hn]

/-! ## Claims about the spider -/

/-- C2: for every fetched page with K item containers, `extract` returns
exactly K Records, in document order (the i-th Record is extracted from
the i-th container), each with all five fields present (they are total
`String` fields of `Record`). -/
theorem extract_count_and_order (r : Response) :
    (extract r).records.length = r.books.length ∧
    ∀ i : Nat, (extract r).records[i]? = (r.books[i]?).map (extractBook r.url) := by
  refine ⟨by simp [extract], fun i => ?_⟩
  simp [extract, List.getElem?_map]

/-- C4: if a page has no forward-navigation link, the PageResult's next
reference is `none`, and the driver transitions from RUNNING to DONE on
consuming it, issuing no further page request. -/
theorem no_next_transitions_done (site : String → Response) (url : String) (r : Response)
    (hf : site url = r) (hn : r.nextHref = none) :
    (extract r).next = none ∧
    crawlStep site url = ((extract r).records, CrawlState.DONE) ∧
    ∀ fuel : Nat, crawl site (fuel + 1) (CrawlState.RUNNING url) =
      ((extract r).records, CrawlState.DONE) := by
  refine ⟨by simp [extract, hn], crawlStep_stop site url r hf hn, fun fuel => ?_⟩
  rw [crawl_succ, crawlStep_stop site url r hf hn]
  simp [crawl_done]

/-- Witness for C4 at the synthetic last page. -/
theorem no_next_transitions_done_witness :
    demoPage3.nextHref = none ∧
    crawlStep demoSite "http://s/p3.html" = ((extract demoPage3).records, CrawlState.DONE) :=
  ⟨rfl, (no_next_transitions_done demoSite "http://s/p3.html" demoPage3 rfl rfl).2.1⟩

/-- C1: on a synthetic 3-page linear pagination (page 1 links to page 2,
page 2 to page 3, page 3 has none), `crawl` emits the Records of all
three pages in page order and terminates in DONE, for any spare fuel. -/
theorem crawl_three_pages (site : String → Response) (u1 n1 n2 : String)
    (r1 r2 r3 : Response)
    (h1 : site u1 = r1) (hn1 : r1.nextHref = some n1) (hne1 : n1 ≠ "")
    (h2 : site (urljoin r1.url n1) = r2) (hn2 : r2.nextHref = some n2) (hne2 : n2 ≠ "")
    (h3 : site (urljoin r2.url n2) = r3) (hn3 : r3.nextHref = none)
    (fuel : Nat) :
    crawl site (fuel + 3) (CrawlState.RUNNING u1) =
      ((extract r1).records ++ (extract r2).records ++ (extract r3).records,
       CrawlState.DONE) := by
  show crawl site (fuel + 2 + 1) (CrawlState.RUNNING u1) = _
  rw [crawl_succ, crawlStep_next site u1 r1 n1 h1 hn1 hne1]
  show (_ ++ (crawl site (fuel + 1 + 1) _).1, (crawl site (fuel + 1 + 1) _).2) = _
  rw [crawl_succ, crawlStep_next site _ r2 n2 h2 hn2 hne2]
  rw [crawl_succ, crawlStep_stop site _ r3 h3 hn3]
  simp [crawl_done]

/-- Witness for C1 at the concrete synthetic 3-page site. -/
theorem crawl_three_pages_witness :
    demoPage1.nextHref = some "p2.html" ∧
    demoPage2.nextHref = some "p3.html" ∧
    demoPage3.nextHref = none ∧
    crawl demoSite 3 (CrawlState.RUNNING "http://s/p1.html") =
      ((extract demoPage1).records ++ (extract demoPage2).records ++
        (extract demoPage3).records, CrawlState.DONE) :=
  ⟨rfl, rfl, rfl,
    crawl_three_pages demoSite "http://s/p1.html" "p2.html" "p3.html"
      demoPage1 demoPage2 demoPage3 rfl rfl (by decide) rfl rfl (by decide) rfl rfl 0⟩

/-- C3 counterexample: on a container whose image selector matched
nothing, the image_url field is `urljoin page-url "" = page-url`, not
the empty string. -/
theorem image_url_missing_selector_cex :
    emptyBook.imageSrc = none ∧
    (extractBook "http://s/p1.html" emptyBook).image_url = "http://s/p1.html" ∧
    (extractBook "http://s/p1.html" emptyBook).image_url ≠ "" := by
  refine ⟨rfl, by decide, by decide⟩

/-- C3 amended: a missing selector never fails; the four text fields
default to the empty string, while a missing image selector yields the
page's own URL (`urljoin url ""`), not the empty string. -/
theorem missing_selectors_defaults (url : String) (b : BookSel) :
    (b.titleAttr = none → (extractBook url b).title = "") ∧
    (b.priceText = none → (extractBook url b).price = "") ∧
    (b.availabilityTexts = [] → (extractBook url b).availability = "") ∧
    (b.ratingClass = none → (extractBook url b).rating = "") ∧
    (b.imageSrc = none → (extractBook url b).image_url = url) := by
  refine ⟨fun h => ?_, fun h => ?_, fun h => ?_, fun h => ?_, fun h => ?_⟩ <;>
    simp only [extractBook, h] <;> rfl

/-- Witness for C3's amended claim at a concrete all-missing container. -/
theorem missing_selectors_defaults_witness :
    emptyBook.titleAttr = none ∧
    (extractBook "http://s/p1.html" emptyBook).title = "" ∧
    (extractBook "http://s/p1.html" emptyBook).price = "" ∧
    (extractBook "http://s/p1.html" emptyBook).availability = "" ∧
    (extractBook "http://s/p1.html" emptyBook).rating = "" ∧
    (extractBook "http://s/p1.html" emptyBook).image_url = "http://s/p1.html" :=
  ⟨rfl,
    (missing_selectors_defaults "http://s/p1.html" emptyBook).1 rfl,
    (missing_selectors_defaults "http://s/p1.html" emptyBook).2.1 rfl,
    (missing_selectors_defaults "http://s/p1.html" emptyBook).2.2.1 rfl,
    (missing_selectors_defaults "http://s/p1.html" emptyBook).2.2.2.1 rfl,
    (missing_selectors_defaults "http://s/p1.html" emptyBook).2.2.2.2 rfl⟩

/-- C5 counterexample: on a page whose content matches no expected
structure (no item containers, no next link), `extract` raises nothing
and returns the empty PageResult — identical to its output on a genuine
final catalogue page — so no distinct page-level error reaches the
caller. -/
theorem unrecognized_page_silent_cex :
    extract { url := "http://s/not-a-catalogue-page.html", books := [], nextHref := none } =
      { records := [], next := none } ∧
    extract { url := "http://s/not-a-catalogue-page.html", books := [], nextHref := none } =
      extract { url := "http://s/genuine-last-page.html", books := [], nextHref := none } :=
  ⟨rfl, rfl⟩

/-- C5 amended: `extract` never surfaces a page-level error; on content
with no recognizable structure it silently returns the empty PageResult,
indistinguishable from the end of the catalogue. -/
theorem extract_unrecognized_silently_empty (u1 u2 : String) :
    extract { url := u1, books := [], nextHref := none } = { records := [], next := none } ∧
    extract { url := u1, books := [], nextHref := none } =
      extract { url := u2, books := [], nextHref := none } :=
  ⟨rfl, rfl⟩

theorem readRows_map_recordRow (rs : List Record) :
    readRows (rs.map recordRow) = some rs := by
  induction rs with
  | nil => rfl
  | cons r rest ih => simp [readRows, recordRow, rowRecord, ih]

/-- C6: round-trip through the sink — writing N Records and reading the
sink back yields exactly the N Records unchanged, behind a single header
row holding the five literal column names in order. -/
theorem sink_round_trip (rs : List Record) :
    readSink (writeSink rs) = some rs ∧
    (writeSink rs).length = rs.length + 1 ∧
    (writeSink rs).head? =
      some ["Book Title", "Book Price", "Instock Availability", "Rating", "Image URL"] := by
  refine ⟨?_, by simp [writeSink], rfl⟩
  simp [readSink, writeSink, readRows_map_recordRow]

/-! ## Helper lemmas about characters, trimming and digit searches -/

theorem isPyWS_of_isDigit (c : Char) (h : c.isDigit = true) : isPyWS c = false := by
  cases hc : isPyWS c
  · rfl
  · exfalso
    unfold isPyWS at hc
    simp only [Bool.or_eq_true, decide_eq_true_eq] at hc
    rcases hc with ((((rfl | rfl) | rfl) | rfl) | rfl) | rfl <;> exact absurd h (by decide)

theorem mem_dropWhile_of_mem {α : Type} (p : α → Bool) (c : α) (hp : p c = false) :
    ∀ l : List α, c ∈ l → c ∈ l.dropWhile p
  | [], h => absurd h (List.not_mem_nil c)
  | a :: l, h => by
    rw [List.dropWhile_cons]
    by_cases ha : p a = true
    · rw [if_pos ha]
      rcases List.mem_cons.1 h with rfl | hl
      · rw [hp] at ha; cases ha
      · exact mem_dropWhile_of_mem p c hp l hl
    · rw [if_neg ha]
      exact h

theorem mem_of_mem_trimL {c : Char} {cs : List Char} (h : c ∈ trimL cs) : c ∈ cs := by
  unfold trimL at h
  rw [List.mem_reverse] at h
  have h2 := List.dropWhile_subset (l := (cs.dropWhile isPyWS).reverse) isPyWS h
  rw [List.mem_reverse] at h2
  exact List.dropWhile_subset isPyWS h2

theorem mem_trimL_of_mem {c : Char} {cs : List Char} (hws : isPyWS c = false)
    (h : c ∈ cs) : c ∈ trimL cs := by
  unfold trimL
  rw [List.mem_reverse]
  apply mem_dropWhile_of_mem isPyWS c hws
  rw [List.mem_reverse]
  exact mem_dropWhile_of_mem isPyWS c hws cs h

theorem any_digit_trimL (cs : List Char) :
    (trimL cs).any Char.isDigit = cs.any Char.isDigit := by
  rw [Bool.eq_iff_iff]
  simp only [List.any_eq_true]
  constructor
  · rintro ⟨c, hc, hd⟩
    exact ⟨c, mem_of_mem_trimL hc, hd⟩
  · rintro ⟨c, hc, hd⟩
    exact ⟨c, mem_trimL_of_mem (isPyWS_of_isDigit c hd) hc, hd⟩

theorem reSearchInt_eq_none (cs : List Char) :
    reSearchInt cs = none ↔ cs.any Char.isDigit = false := by
  induction cs with
  | nil => simp [reSearchInt]
  | cons c cs ih =>
    by_cases hc : c.isDigit
    · simp [reSearchInt, hc]
    · simp only [reSearchInt, if_neg hc, List.any_cons, hc, Bool.false_or]
      exact ih

/-! ## Claims about the dashboard's price parsing -/

/-- C7 counterexample: `parse_price "51,77"` strips the comma and parses
`"5177"`, returning 5177 — refuting the claim's assertion that the
thousands-separator form does not yield 5177. -/
theorem price_comma_form_yields_5177_cex :
    parsePrice "51,77" = some (PyFloatVal.fin 5177) := by decide

/-- C7 amended: `parse_price "£51.77" = 51.77`; the comma is stripped as
a thousands separator, so the comma form `"51,77"` parses as the integer
5177 (it does not parse as the fractional value 51.77 — only
decimal-point numbers parse as fractional). -/
theorem price_parsing_amended :
    parsePrice "£51.77" = some (PyFloatVal.fin (mkRat 5177 100)) ∧
    parsePrice "51,77" = some (PyFloatVal.fin 5177) ∧
    parsePrice "51,77" ≠ some (PyFloatVal.fin (mkRat 5177 100)) := by
  refine ⟨by decide, by decide, by decide⟩

/-! ## Claims about the dashboard's rating parsing -/

/-- C8 counterexample: `"One Three"` contains `"Three"` case-insensitively
but `parse_rating` returns 1 (the dict is scanned in order One..Five), and
`"7"` contains none of the five ordinal words yet `parse_rating` returns 7
(digit-regex fallback), not a missing value. -/
theorem rating_parsing_cex :
    ciContains "three" "One Three" = true ∧
    parseRating "One Three" = some 1 ∧
    parseRating "One Three" ≠ some 3 ∧
    ciContains "one" "7" = false ∧
    ciContains "two" "7" = false ∧
    ciContains "three" "7" = false ∧
    ciContains "four" "7" = false ∧
    ciContains "five" "7" = false ∧
    parseRating "7" = some 7 ∧
    parseRating "7" ≠ none := by decide

/-- C8 amended: `parse_rating` returns the integer of the *first* ordinal
word (in the fixed order One, Two, Three, Four, Five) contained
case-insensitively — so a string containing `"Three"` yields 3 only when
it contains neither `"One"` nor `"Two"`; any string containing some
ordinal word yields an integer in 1..5; and the result is missing iff the
string contains none of the five words *and* no decimal digit (otherwise
the digit-regex fallback returns the first digit run). -/
theorem rating_parsing_amended (s : String) :
    (ciContains "three" s = true → ciContains "one" s = false →
      ciContains "two" s = false → parseRating s = some 3) ∧
    ((ciContains "one" s || ciContains "two" s || ciContains "three" s ||
      ciContains "four" s || ciContains "five" s) = true →
      ∃ v, parseRating s = some v ∧ 1 ≤ v ∧ v ≤ 5) ∧
    (parseRating s = none ↔
      (ciContains "one" s = false ∧ ciContains "two" s = false ∧
       ciContains "three" s = false ∧ ciContains "four" s = false ∧
       ciContains "five" s = false ∧ containsDigitL s.toList = false)) := by
  refine ⟨fun h3 h1 h2 => by simp [parseRating, h1, h2, h3], ?_, ?_⟩
  · intro h
    by_cases c1 : ciContains "one" s = true
    · exact ⟨1, by simp [parseRating, c1], by decide, by decide⟩
    · by_cases c2 : ciContains "two" s = true
      · exact ⟨2, by simp [parseRating, Bool.of_not_eq_true c1, c2], by decide, by decide⟩
      · by_cases c3 : ciContains "three" s = true
        · exact ⟨3, by simp [parseRating, Bool.of_not_eq_true c1, Bool.of_not_eq_true c2, c3],
            by decide, by decide⟩
        · by_cases c4 : ciContains "four" s = true
          · exact ⟨4, by simp [parseRating, Bool.of_not_eq_true c1, Bool.of_not_eq_true c2,
              Bool.of_not_eq_true c3, c4], by decide, by decide⟩
          · by_cases c5 : ciContains "five" s = true
            · exact ⟨5, by simp [parseRating, Bool.of_not_eq_true c1, Bool.of_not_eq_true c2,
                Bool.of_not_eq_true c3, Bool.of_not_eq_true c4, c5], by decide, by decide⟩
            · exfalso
              simp [Bool.of_not_eq_true c1, Bool.of_not_eq_true c2, Bool.of_not_eq_true c3,
                Bool.of_not_eq_true c4, Bool.of_not_eq_true c5] at h
  · by_cases c1 : ciContains "one" s = true
    · simp [parseRating, c1]
    · by_cases c2 : ciContains "two" s = true
      · simp [parseRating, Bool.of_not_eq_true c1, c2]
      · by_cases c3 : ciContains "three" s = true
        · simp [parseRating, Bool.of_not_eq_true c1, Bool.of_not_eq_true c2, c3]
        · by_cases c4 : ciContains "four" s = true
          · simp [parseRating, Bool.of_not_eq_true c1, Bool.of_not_eq_true c2,
              Bool.of_not_eq_true c3, c4]
          · by_cases c5 : ciContains "five" s = true
            · simp [parseRating, Bool.of_not_eq_true c1, Bool.of_not_eq_true c2,
                Bool.of_not_eq_true c3, Bool.of_not_eq_true c4, c5]
            · simp [parseRating, Bool.of_not_eq_true c1, Bool.of_not_eq_true c2,
                Bool.of_not_eq_true c3, Bool.of_not_eq_true c4, Bool.of_not_eq_true c5,
                reSearchInt_eq_none, any_digit_trimL, containsDigitL]

/-- Witness for C8's amended claim: `"star-rating Three"` contains
`"three"` case-insensitively, none of the earlier words, and parses to 3. -/
theorem rating_parsing_amended_witness :
    ciContains "three" "star-rating Three" = true ∧
    parseRating "star-rating Three" = some 3 :=
  ⟨by decide,
    (rating_parsing_amended "star-rating Three").1 (by decide) (by decide) (by decide)⟩

/-! ## Claim about the dashboard's rating filter -/

/-- C10: the rating filter `df[df["rating_num"].isin(rating_options)]`
keeps only rows whose `rating_num` parsed to a number: for every choice
of options, a row whose Rating failed to parse (`ratingNum = none`) is
excluded from the filtered dataset (and hence from everything derived
from it). -/
theorem rating_filter_drops_unparsed (opts : List Nat) (rows : List DashRow) (r : DashRow) :
    (r ∈ isinFilter opts rows → (ratingNum r).isSome = true) ∧
    (ratingNum r = none → r ∉ isinFilter opts rows) := by
  constructor
  · intro h
    have hf := (List.mem_filter.1 h).2
    cases hr : ratingNum r with
    | some v => rfl
    | none => rw [hr] at hf; exact absurd hf (by simp)
  · intro hr h
    have hf := (List.mem_filter.1 h).2
    rw [hr] at hf
    exact absurd hf (by simp)

/-- Witness for C10: a row whose Rating cell parses to nothing is dropped
by the filter even with all five ratings selected. -/
theorem rating_filter_drops_unparsed_witness :
    ratingNum { bookTitle := "t", bookPrice := "£1.00", instock := "In stock",
                rating := "unrated", imageURL := "u" } = none ∧
    { bookTitle := "t", bookPrice := "£1.00", instock := "In stock",
      rating := "unrated", imageURL := "u" } ∉
      isinFilter [1, 2, 3, 4, 5]
        [{ bookTitle := "t", bookPrice := "£1.00", instock := "In stock",
           rating := "unrated", imageURL := "u" }] :=
  ⟨by decide,
    (rating_filter_drops_unparsed [1, 2, 3, 4, 5]
      [{ bookTitle := "t", bookPrice := "£1.00", instock := "In stock",
         rating := "unrated", imageURL := "u" }]
      { bookTitle := "t", bookPrice := "£1.00", instock := "In stock",
        rating := "unrated", imageURL := "u" }).2 (by decide)⟩

/-! ## Helper lemmas for `parse_price` missingness -/

theorem lowerAscii_isDigit (c : Char) : (lowerAscii c).isDigit = c.isDigit := by
  unfold lowerAscii
  split <;> rfl

theorem any_map_lowerAscii (cs : List Char) :
    (cs.map lowerAscii).any Char.isDigit = cs.any Char.isDigit := by
  induction cs with
  | nil => rfl
  | cons c r ih => simp [List.any_cons, lowerAscii_isDigit, ih]

theorem isDigitpart_any (cs : List Char) (h : isDigitpart cs = true) :
    cs.any Char.isDigit = true := by
  cases cs with
  | nil => exact absurd h (by decide)
  | cons c rest =>
    unfold isDigitpart at h
    simp only [Bool.and_eq_true] at h
    simp [List.any_cons, h.1]

theorem signSplit_any (t : List Char) :
    ((signSplit t).2).any Char.isDigit = t.any Char.isDigit := by
  cases t with
  | nil => rfl
  | cons c r =>
    unfold signSplit
    by_cases h1 : c = '+'
    · subst h1
      simp [List.any_cons, show Char.isDigit '+' = false from rfl]
    · by_cases h2 : c = '-'
      · subst h2
        simp [h1, List.any_cons, show Char.isDigit '-' = false from rfl]
      · simp [h1, h2]


theorem parseMantissa_digit (cs : List Char) (m : Int × Nat)
    (h : parseMantissa cs = some m) : cs.any Char.isDigit = true := by
  have hip : ∀ x ∈ cs.takeWhile (fun c => c ≠ '.'), x ∈ cs :=
    fun x hx => List.takeWhile_subset _ hx
  rw [List.any_eq_true]
  simp only [parseMantissa] at h
  split at h
  · split at h
    · rename_i hdp
      obtain ⟨x, hx, hd⟩ := List.any_eq_true.1 (isDigitpart_any _ hdp)
      exact ⟨x, hip x hx, hd⟩
    · simp at h
  · rename_i head frac heq
    have hfr : ∀ x ∈ frac, x ∈ cs := by
      intro x hx
      have hx2 : x ∈ List.dropWhile (fun c => decide (c ≠ '.')) cs := by
        rw [heq]; exact List.mem_cons_of_mem head hx
      exact List.dropWhile_subset _ hx2
    split at h
    · split at h
      · rename_i hdp
        obtain ⟨x, hx, hd⟩ := List.any_eq_true.1 (isDigitpart_any _ hdp)
        exact ⟨x, hfr x hx, hd⟩
      · simp at h
    · split at h
      · rename_i hdp
        obtain ⟨x, hx, hd⟩ := List.any_eq_true.1 (isDigitpart_any _ hdp)
        exact ⟨x, hip x hx, hd⟩
      · simp at h

theorem parseNumeric_digit (cs : List Char) (q : ℚ)
    (h : parseNumeric cs = some q) : cs.any Char.isDigit = true := by
  have hsub : ∀ x ∈ cs.takeWhile (fun c => c ≠ 'e' && c ≠ 'E'), x ∈ cs :=
    fun x hx => List.takeWhile_subset _ hx
  have key : ∀ m, parseMantissa (cs.takeWhile (fun c => c ≠ 'e' && c ≠ 'E')) = some m →
      cs.any Char.isDigit = true := by
    intro m hm
    obtain ⟨x, hx, hd⟩ := List.any_eq_true.1 (parseMantissa_digit _ m hm)
    exact List.any_eq_true.2 ⟨x, hsub x hx, hd⟩
  simp only [parseNumeric] at h
  split at h
  · cases hm : parseMantissa (cs.takeWhile (fun c => c ≠ 'e' && c ≠ 'E')) with
    | none => rw [hm] at h; simp at h
    | some m => exact key m hm
  · split at h
    · rename_i m e hm he
      exact key m hm
    · simp at h

theorem reSearchNum_eq_none (cs : List Char) :
    reSearchNum cs = none ↔ cs.any Char.isDigit = false := by
  induction cs with
  | nil => simp [reSearchNum]
  | cons c cs ih =>
    by_cases hc : c.isDigit
    · simp only [reSearchNum, if_pos hc]
      constructor
      · intro h
        exfalso
        split at h
        · split at h <;> simp at h
        · simp at h
      · intro h
        rw [List.any_cons, hc] at h
        simp at h
    · simp only [reSearchNum, if_neg hc, List.any_cons, Bool.of_not_eq_true hc, Bool.false_or]
      exact ih

theorem pyFloat_inf_iff (cs : List Char) :
    (∃ b, pyFloat? cs = some (PyFloatVal.inf b)) ↔ isInfLit cs = true := by
  simp only [pyFloat?, floatUnsigned, isInfLit]
  by_cases h : isInfTok (signSplit (trimL cs)).2 = true
  · simp [h]
  · simp only [Bool.of_not_eq_true h, Bool.false_eq_true, if_false, iff_false]
    rintro ⟨b, hb⟩
    by_cases hn : isNanTok (signSplit (trimL cs)).2 = true
    · rw [if_pos hn] at hb; simp at hb
    · rw [if_neg hn] at hb
      split at hb <;> simp at hb

theorem pyFloat_fin_digit (cs : List Char) (q : ℚ)
    (h : pyFloat? cs = some (PyFloatVal.fin q)) : cs.any Char.isDigit = true := by
  simp only [pyFloat?, floatUnsigned] at h
  split at h
  · simp at h
  · split at h
    · simp at h
    · split at h
      · rename_i q' hq
        have h1 := parseNumeric_digit _ _ hq
        rw [signSplit_any] at h1
        rw [any_digit_trimL] at h1
        exact h1
      · simp at h

theorem pyFloat_nan_nodigit (cs : List Char)
    (h : pyFloat? cs = some PyFloatVal.nan) : cs.any Char.isDigit = false := by
  simp only [pyFloat?, floatUnsigned] at h
  split at h
  · simp at h
  · split at h
    · rename_i hinf hn
      simp only [isNanTok, decide_eq_true_eq] at hn
      have h1 : ((signSplit (trimL cs)).2.map lowerAscii).any Char.isDigit = false := by
        rw [hn]; decide
      rw [any_map_lowerAscii, signSplit_any, any_digit_trimL] at h1
      exact h1
    · split at h <;> simp at h

theorem parsePrice_eq (p : String) :
    parsePrice p =
      match pyFloat? (cleanPrice p.toList) with
      | some v => some v
      | none => (reSearchNum (cleanPrice p.toList)).map PyFloatVal.fin := rfl

/-! ## Claim about `parse_price` missingness -/

/-- C9 counterexample: the input `"inf"` has no decimal digit after
cleaning, yet `parse_price` does not return a missing value — Python's
`float("inf")` succeeds and yields infinity. -/
theorem price_inf_not_missing_cex :
    containsDigitL (cleanPrice "inf".toList) = false ∧
    parsePrice "inf" = some (PyFloatVal.inf false) ∧
    isMissing (parsePrice "inf") = false := by
  refine ⟨by decide, by decide, by decide⟩

/-- C9 amended: `parse_price` returns a missing value iff the cleaned
input (after removing `Â`, `£`, `$`, `,`) contains no decimal digit and
is not a `float`-accepted infinity literal (a NaN literal, which also
has no digit, yields `float("nan")`, which is itself a missing value);
and whenever direct float conversion fails but the cleaned string still
contains a digit, `parse_price` returns the first number matched by
`\d+(?:\.\d+)?` instead of missing. -/
theorem parse_price_missing_iff (p : String) :
    (isMissing (parsePrice p) = true ↔
      (containsDigitL (cleanPrice p.toList) = false ∧
       isInfLit (cleanPrice p.toList) = false)) ∧
    (pyFloat? (cleanPrice p.toList) = none →
      containsDigitL (cleanPrice p.toList) = true →
      ∃ q, reSearchNum (cleanPrice p.toList) = some q ∧
        parsePrice p = some (PyFloatVal.fin q)) := by
  constructor
  · by_cases hInf : isInfLit (cleanPrice p.toList) = true
    · obtain ⟨b, hb⟩ := (pyFloat_inf_iff (cleanPrice p.toList)).2 hInf
      rw [parsePrice_eq, hb]
      constructor
      · intro h
        simp [isMissing] at h
      · rintro ⟨-, h2⟩
        rw [hInf] at h2
        simp at h2
    · have hInf2 : isInfLit (cleanPrice p.toList) = false := Bool.of_not_eq_true hInf
      cases hf : pyFloat? (cleanPrice p.toList) with
      | some v =>
        cases v with
        | fin q =>
          have hd := pyFloat_fin_digit _ _ hf
          rw [parsePrice_eq, hf]
          simp only [containsDigitL, hd, isMissing]
          simp
        | inf b => exact absurd ((pyFloat_inf_iff _).1 ⟨b, hf⟩) hInf
        | nan =>
          have hd := pyFloat_nan_nodigit _ hf
          rw [parsePrice_eq, hf]
          simp only [containsDigitL, hd, isMissing, hInf2]
          simp
      | none =>
        cases hr : reSearchNum (cleanPrice p.toList) with
        | some q =>
          have hd : (cleanPrice p.toList).any Char.isDigit = true := by
            cases hdd : (cleanPrice p.toList).any Char.isDigit with
            | true => rfl
            | false =>
              have h0 := (reSearchNum_eq_none (cleanPrice p.toList)).2 hdd
              rw [hr] at h0
              simp at h0
          rw [parsePrice_eq, hf, hr]
          simp only [containsDigitL, hd, isMissing, Option.map_some]
          simp
        | none =>
          have hd := (reSearchNum_eq_none _).1 hr
          rw [parsePrice_eq, hf, hr]
          simp only [containsDigitL, hd, isMissing, hInf2, Option.map_none]
          simp
  · intro hf hd
    cases hr : reSearchNum (cleanPrice p.toList) with
    | none =>
      have h0 := (reSearchNum_eq_none _).1 hr
      simp only [containsDigitL] at hd
      rw [h0] at hd
      simp at hd
    | some q =>
      refine ⟨q, rfl, ?_⟩
      rw [parsePrice_eq, hf, hr]
      rfl

/-- Witness for C9's amended claim: on `"abc12.5x"` float conversion
fails, a digit is present, and the regex fallback returns 12.5. -/
theorem parse_price_missing_iff_witness :
    pyFloat? (cleanPrice "abc12.5x".toList) = none ∧
    containsDigitL (cleanPrice "abc12.5x".toList) = true ∧
    parsePrice "abc12.5x" = some (PyFloatVal.fin (mkRat 25 2)) ∧
    isMissing (parsePrice "abc12.5x") = false := by
  obtain ⟨q, hq, hp⟩ :=
    (parse_price_missing_iff "abc12.5x").2 (by decide) (by decide)
  have h2 : reSearchNum (cleanPrice "abc12.5x".toList) = some (mkRat 25 2) := by decide
  rw [h2] at hq
  have hq2 := Option.some.inj hq
  rw [← hq2] at hp
  exact ⟨by decide, by decide, hp, by rw [hp]; rfl⟩
